import Mathlib

/-!
Shallow embedding of `src/app.py` (a market-data scanner) and proofs of the
specification claims about it.

Modelling conventions:
* Python strings are Lean `String`s; headline text manipulated character-wise
  is a `List Char` (Python strings are sequences of code points).
  The Python `str.lower` is embedded by `Char.toLower` mapped over the list
  (ASCII lowercasing, which is the behaviour of Python on the ASCII range
  where the keyword lists and thresholds of the scanner live).
* Python ints are `Int`, Python floats are `ℚ` (exact rational arithmetic;
  every number the scanner produces is a rational with denominator 50, where
  float arithmetic is exact).
* The external data sources (HTTP fetch, yfinance) are modelled by explicit
  input data types with an `err` constructor standing for "the call raised an
  exception", so the `try/except` blocks of the source become pattern matches.
-/

namespace Scanner

/-- The fixed positive-term list `positive_words` of `src/app.py`, as character lists. -/
def positive_words : List (List Char) :=
  ["beats".toList, "soars".toList, "growth".toList, "jump".toList,
   "rises".toList, "strong".toList, "profit".toList]

/-- The fixed negative-term list `negative_words` of `src/app.py`, as character lists. -/
def negative_words : List (List Char) :=
  ["falls".toList, "misses".toList, "drop".toList, "weak".toList,
   "loss".toList, "cuts".toList, "bad".toList]

/-- Embedding of Python `text.lower()` on the text of a headline. -/
def lowerText (s : List Char) : List Char := s.map Char.toLower

/-- Embedding of the Python substring test `w in t`: `w` occurs contiguously
somewhere in `t`. -/
def containsSeq (w : List Char) : List Char → Bool
  | [] => w.isEmpty
  | c :: rest => w.isPrefixOf (c :: rest) || containsSeq w rest

/-- Embedding of `sentiment_score` from `src/app.py`: lower-case the text, then
`pos = sum(word in text for word in positive_words)` counts the positive terms
contained in the text as substrings (`word in text` is substring containment),
`neg` likewise for the negative terms, and the result is `pos - neg`. -/
def sentiment_score (text : List Char) : Int :=
  let t := lowerText text
  let pos := positive_words.countP fun w => containsSeq w t
  let neg := negative_words.countP fun w => containsSeq w t
  (pos : Int) - (neg : Int)

/-- Embedding of `classify` from `src/app.py`: five threshold tests, first
match wins, on the (float, here rational) final score. -/
def classify (score : ℚ) : String :=
  if score ≥ 60 then "🔥 STRONG BULLISH"
  else if score ≥ 40 then "🟢 BULLISH"
  else if score ≥ 25 then "🟡 NEUTRAL"
  else if score ≥ 10 then "🔻 BEARISH"
  else "🛑 STRONG BEARISH"

/-- The outcome of the HTTP fetch and HTML parse inside `fetch_news`:
either the request/parse raised (`err`), or it produced a page whose `h3`
elements have the given texts, in document order. -/
inductive NewsData where
  | err : NewsData
  | page (headings : List (List Char)) : NewsData

/-- Embedding of `fetch_news` from `src/app.py`: on success it returns the
texts of the first 5 `h3` elements (`soup.find_all("h3", limit=5)`); the
`except` clause turns any failure into `[]`. -/
def fetch_news : NewsData → List (List Char)
  | .err => []
  | .page headings => headings.take 5

/-- The outcome of `yf.Ticker(t).financials` plus the row lookups inside
`fundamental_score`: `err` if anything in the `try` block raised (network
failure, missing "Total Revenue"/"Net Income" row, fewer than 2 periods),
`empty` if `fin.empty`, and otherwise the two most recent revenue and
net-income figures (`iloc[0]` is the latest, `iloc[1]` the prior one). -/
inductive FinData where
  | err : FinData
  | empty : FinData
  | rows (rev0 rev1 ni0 ni1 : ℚ) : FinData

/-- Embedding of `fundamental_score` from `src/app.py`: score starts at 0 and
a reason list at `[]`; +10/"Revenue growing" if latest revenue exceeds prior,
else -10/"Revenue declining"; +10/"Net income improving" if latest net income
exceeds prior, else -10/"Net income declining"; the reason fragments are
joined with ", ". The `except` clause yields `(0, "Financial analysis error")`. -/
def fundamental_score : FinData → Int × String
  | .err => (0, "Financial analysis error")
  | .empty => (0, "No financials")
  | .rows rev0 rev1 ni0 ni1 =>
    let score0 : Int := 0
    let reason0 : List String := []
    let score1 := if rev0 > rev1 then score0 + 10 else score0 - 10
    let reason1 := reason0 ++ [if rev0 > rev1 then "Revenue growing" else "Revenue declining"]
    let score2 := if ni0 > ni1 then score1 + 10 else score1 - 10
    let reason2 := reason1 ++ [if ni0 > ni1 then "Net income improving" else "Net income declining"]
    (score2, String.intercalate (", ") reason2)

/-- The outcome of `yf.download(ticker, period="3mo")` inside `trend_score`:
`err` if the download raised, otherwise the chronological list of daily
closing prices (possibly empty, matching `data.empty`). -/
inductive TrendData where
  | err : TrendData
  | closes (cs : List ℚ) : TrendData

/-- The last entry of `data["Close"].rolling(20).mean()`: the mean of the
last 20 closes when at least 20 rows exist, and missing (pandas `NaN`)
otherwise. -/
def ma20_last (cs : List ℚ) : Option ℚ :=
  if 20 ≤ cs.length then some ((cs.drop (cs.length - 20)).sum / 20) else none

/-- Embedding of `trend_score` from `src/app.py`. `price` is the last close
(`iloc[-1]`; the default of `getLastD` is never used because the empty case
returns first). When `ma20_last` is `none` the source compares
`price > NaN`, which is `False` in pandas/NumPy, so the `else` branch
(`(-10, "Downtrend")`) is taken; the `none` branch encodes exactly that.
The `except` clause yields `(0, "Trend error")`. -/
def trend_score : TrendData → Int × String
  | .err => (0, "Trend error")
  | .closes cs =>
    if cs.isEmpty then (0, "No data")
    else
      let price := cs.getLastD 0
      match ma20_last cs with
      | some ma20 => if price > ma20 then (10, "Uptrend") else (-10, "Downtrend")
      | none => (-10, "Downtrend")

/-- Round-half-to-even at integer precision, the rounding mode of the Python
built-in `round`. -/
def roundHalfEven (q : ℚ) : ℤ :=
  let n := ⌊q⌋
  if q - n < 1/2 then n
  else if 1/2 < q - n then n + 1
  else if Even n then n else n + 1

/-- Embedding of Python `round(x, 2)`: round half to even at two decimal
places. -/
def round2 (q : ℚ) : ℚ := (roundHalfEven (q * 100) : ℚ) / 100

/-- The three slider weights `w_news`, `w_fund`, `w_trend` of `src/app.py`;
each slider ranges over the integers 0..50. -/
structure WeightConfig where
  w_news : ℕ
  w_fund : ℕ
  w_trend : ℕ

/-- The weighted blend computed in the scan loop of `src/app.py`:
`news_score * (w_news / 50) + f_score * (w_fund / 50) + t_score * (w_trend / 50)`
(Python `/` on ints is exact true division, hence rational division here). -/
def blend (news_score f_score t_score : ℚ) (w : WeightConfig) : ℚ :=
  news_score * ((w.w_news : ℚ) / 50)
    + f_score * ((w.w_fund : ℚ) / 50)
    + t_score * ((w.w_trend : ℚ) / 50)

/-- The external data of one ticker for a scan: what the news fetch, the
financials fetch and the price download would deliver for it. -/
structure TickerEnv where
  newsData : NewsData
  finData : FinData
  trendData : TrendData

/-- The record appended to `results` for one ticker in the scan loop.
`news`, `fund` and `trend` are Python ints, on which `round(·, 2)` is the
identity, so those fields carry the int directly; `final_score` carries
`round(final, 2)` and `signal` carries `classify(final)` on the unrounded
blend, exactly as in the source. -/
structure ScanResult where
  ticker : String
  news : Int
  fund : Int
  fund_reason : String
  trend : Int
  trend_reason : String
  final_score : ℚ
  signal : String
deriving DecidableEq

/-- The news score of one ticker in the scan loop:
`sum(sentiment_score(n) for n in news) * 5`. -/
def newsScoreOf (env : String → TickerEnv) (ticker : String) : Int :=
  ((fetch_news (env ticker).newsData).map sentiment_score).sum * 5

/-- The body of the scan loop of `src/app.py` for one ticker, given the
external data `env` and the slider weights `w`. -/
def processTicker (env : String → TickerEnv) (w : WeightConfig) (ticker : String) : ScanResult :=
  let news_score := newsScoreOf env ticker
  let f := fundamental_score (env ticker).finData
  let t := trend_score (env ticker).trendData
  let final := blend (news_score : ℚ) (f.1 : ℚ) (t.1 : ℚ) w
  { ticker := ticker
    news := news_score
    fund := f.1
    fund_reason := f.2
    trend := t.1
    trend_reason := t.2
    final_score := round2 final
    signal := classify final }

/-- The scan loop of `src/app.py`: one `ScanResult` appended per ticker, in
input order. -/
def scan (env : String → TickerEnv) (w : WeightConfig) (tickers : List String) : List ScanResult :=
  tickers.map (processTicker env w)

/-- The block of HTML appended to the report for one result inside the loop
of `generate_report`. -/
def resultBlock (r : ScanResult) : String :=
  "<h3>" ++ r.ticker ++ "</h3>"
    ++ "<p>Score: " ++ toString r.final_score ++ " — " ++ r.signal ++ "</p>"
    ++ "<p>News Score: " ++ toString r.news ++ "</p>"
    ++ "<p>Fundamentals: " ++ toString r.fund ++ " (" ++ r.fund_reason ++ ")</p>"
    ++ "<p>Trend: " ++ toString r.trend ++ " (" ++ r.trend_reason ++ ")</p>"
    ++ "<hr>"

/-- Embedding of `generate_report` from `src/app.py`: start from the title
and append one block per result, left to right. -/
def generate_report (results : List ScanResult) : String :=
  results.foldl (fun html r => html ++ resultBlock r) "<h1>Market Scanner Report</h1>"

/-- The concatenation, in order, of one block per result: the shape
`generate_report` is proved to produce. -/
def reportBody : List ScanResult → String
  | [] => ""
  | r :: rs => resultBlock r ++ reportBody rs

/-! Helper lemmas. -/

/-- Reading back the code point of a character built from a code point below
the surrogate range gives that code point. -/
theorem toNat_ofNat_of_lt {n : ℕ} (h : n < 55296) : (Char.ofNat n).toNat = n := by
  have hv : n.isValidChar := Or.inl h
  simp [Char.ofNat, dif_pos hv, Char.ofNatAux, Char.toNat, UInt32.toNat]

/-- ASCII lowercasing is idempotent. -/
theorem char_toLower_idem (c : Char) : c.toLower.toLower = c.toLower := by
  unfold Char.toLower
  by_cases h : c.toNat ≥ 65 ∧ c.toNat ≤ 90
  · rw [if_pos h]
    have ht : (Char.ofNat (c.toNat + 32)).toNat = c.toNat + 32 :=
      toNat_ofNat_of_lt (by omega)
    rw [ht, if_neg (by omega)]
  · rw [if_neg h, if_neg h]

/-- Lowercasing a headline twice is the same as lowercasing it once. -/
theorem lowerText_idem (s : List Char) : lowerText (lowerText s) = lowerText s := by
  have h : Char.toLower ∘ Char.toLower = Char.toLower := funext char_toLower_idem
  simp [lowerText, List.map_map, h]

/-! Claim theorems. -/

/-- C1: `classify` is a total deterministic function returning exactly one of
the five ordered labels, chosen by descending threshold with first match wins:
`f ≥ 60` gives STRONG BULLISH, `60 > f ≥ 40` BULLISH, `40 > f ≥ 25` NEUTRAL,
`25 > f ≥ 10` BEARISH, `f < 10` STRONG BEARISH; the five bands partition ℚ
with no gap and no overlap and each boundary value belongs to the higher band.
(The label strings in the code carry a leading emoji before the label text
used by the spec.) -/
theorem classify_total_partition (f : ℚ) :
    (classify f = "🔥 STRONG BULLISH" ∨ classify f = "🟢 BULLISH"
      ∨ classify f = "🟡 NEUTRAL" ∨ classify f = "🔻 BEARISH"
      ∨ classify f = "🛑 STRONG BEARISH") ∧
    (classify f = "🔥 STRONG BULLISH" ↔ 60 ≤ f) ∧
    (classify f = "🟢 BULLISH" ↔ 40 ≤ f ∧ f < 60) ∧
    (classify f = "🟡 NEUTRAL" ↔ 25 ≤ f ∧ f < 40) ∧
    (classify f = "🔻 BEARISH" ↔ 10 ≤ f ∧ f < 25) ∧
    (classify f = "🛑 STRONG BEARISH" ↔ f < 10) := by
  unfold classify
  split_ifs with h1 h2 h3 h4
  · exact ⟨by simp,
      ⟨fun _ => h1, fun _ => rfl⟩,
      ⟨fun hc => absurd hc (by decide), fun hc => by exfalso; obtain ⟨ha, hb⟩ := hc; linarith⟩,
      ⟨fun hc => absurd hc (by decide), fun hc => by exfalso; obtain ⟨ha, hb⟩ := hc; linarith⟩,
      ⟨fun hc => absurd hc (by decide), fun hc => by exfalso; obtain ⟨ha, hb⟩ := hc; linarith⟩,
      ⟨fun hc => absurd hc (by decide), fun hc => by exfalso; linarith⟩⟩
  · exact ⟨by simp,
      ⟨fun hc => absurd hc (by decide), fun hc => by exfalso; linarith⟩,
      ⟨fun _ => ⟨h2, by linarith⟩, fun _ => rfl⟩,
      ⟨fun hc => absurd hc (by decide), fun hc => by exfalso; obtain ⟨ha, hb⟩ := hc; linarith⟩,
      ⟨fun hc => absurd hc (by decide), fun hc => by exfalso; obtain ⟨ha, hb⟩ := hc; linarith⟩,
      ⟨fun hc => absurd hc (by decide), fun hc => by exfalso; linarith⟩⟩
  · exact ⟨by simp,
      ⟨fun hc => absurd hc (by decide), fun hc => by exfalso; linarith⟩,
      ⟨fun hc => absurd hc (by decide), fun hc => by exfalso; obtain ⟨ha, hb⟩ := hc; linarith⟩,
      ⟨fun _ => ⟨h3, by linarith⟩, fun _ => rfl⟩,
      ⟨fun hc => absurd hc (by decide), fun hc => by exfalso; obtain ⟨ha, hb⟩ := hc; linarith⟩,
      ⟨fun hc => absurd hc (by decide), fun hc => by exfalso; linarith⟩⟩
  · exact ⟨by simp,
      ⟨fun hc => absurd hc (by decide), fun hc => by exfalso; linarith⟩,
      ⟨fun hc => absurd hc (by decide), fun hc => by exfalso; obtain ⟨ha, hb⟩ := hc; linarith⟩,
      ⟨fun hc => absurd hc (by decide), fun hc => by exfalso; obtain ⟨ha, hb⟩ := hc; linarith⟩,
      ⟨fun _ => ⟨h4, by linarith⟩, fun _ => rfl⟩,
      ⟨fun hc => absurd hc (by decide), fun hc => by exfalso; linarith⟩⟩
  · exact ⟨by simp,
      ⟨fun hc => absurd hc (by decide), fun hc => by exfalso; linarith⟩,
      ⟨fun hc => absurd hc (by decide), fun hc => by exfalso; obtain ⟨ha, hb⟩ := hc; linarith⟩,
      ⟨fun hc => absurd hc (by decide), fun hc => by exfalso; obtain ⟨ha, hb⟩ := hc; linarith⟩,
      ⟨fun hc => absurd hc (by decide), fun hc => by exfalso; obtain ⟨ha, hb⟩ := hc; linarith⟩,
      ⟨fun _ => by linarith, fun _ => rfl⟩⟩

/-- C3: `sentiment_score` lower-cases its input and returns the number of
positive terms contained in it (as substrings) minus the number of negative
terms contained in it; it is pure and total, case-insensitive
(`sentiment_score t = sentiment_score (lowerText t)`, and in particular on
"Strong Growth" vs "strong growth"), and returns 0 on the empty string. -/
theorem sentiment_score_spec (t : List Char) :
    sentiment_score t
      = ((positive_words.countP fun w => containsSeq w (lowerText t)) : Int)
        - ((negative_words.countP fun w => containsSeq w (lowerText t)) : Int) ∧
    sentiment_score (lowerText t) = sentiment_score t ∧
    sentiment_score ("Strong Growth".toList) = sentiment_score ("strong growth".toList) ∧
    sentiment_score ([] : List Char) = 0 := by
  refine ⟨rfl, ?_, by decide, by decide⟩
  unfold sentiment_score
  rw [lowerText_idem]

/-- C4: `fundamental_score` returns `(0, "No financials")` when no financial
rows exist; otherwise it contributes +10/"Revenue growing" when latest
revenue exceeds prior (else -10/"Revenue declining") and +10/"Net income
improving" when latest net income exceeds prior (else -10/"Net income
declining"), returning the sum — always in {-20, 0, 20} — with the two
fragments joined; in particular both figures growing gives
`(20, "Revenue growing, Net income improving")`. -/
theorem fundamental_score_spec (rev0 rev1 ni0 ni1 : ℚ) :
    fundamental_score .empty = (0, "No financials") ∧
    fundamental_score (.rows rev0 rev1 ni0 ni1)
      = ((if rev0 > rev1 then (10 : Int) else -10) + (if ni0 > ni1 then 10 else -10),
         (if rev0 > rev1 then "Revenue growing" else "Revenue declining")
           ++ ", "
           ++ (if ni0 > ni1 then "Net income improving" else "Net income declining")) ∧
    ((fundamental_score (.rows rev0 rev1 ni0 ni1)).1 = -20
      ∨ (fundamental_score (.rows rev0 rev1 ni0 ni1)).1 = 0
      ∨ (fundamental_score (.rows rev0 rev1 ni0 ni1)).1 = 20) ∧
    (rev0 > rev1 → ni0 > ni1 →
      fundamental_score (.rows rev0 rev1 ni0 ni1)
        = (20, "Revenue growing, Net income improving")) := by
  refine ⟨rfl, ?_, ?_, ?_⟩
  · simp only [fundamental_score]
    split_ifs <;> (simp only [Prod.mk.injEq]; exact ⟨by norm_num, by decide⟩)
  · simp only [fundamental_score]
    split_ifs <;> norm_num
  · intro h1 h2
    simp only [fundamental_score, if_pos h1, if_pos h2]
    simp only [Prod.mk.injEq]
    exact ⟨by norm_num, by decide⟩

/-- The value of the 20-period simple moving average at the last position,
when it exists: the mean of the last 20 closes. -/
def sma20 (cs : List ℚ) : ℚ := (cs.drop (cs.length - 20)).sum / 20

/-- C5: `trend_score` returns `(0, "No data")` on an empty price series, and
on a series long enough for the 20-period moving average to exist it returns
`(10, "Uptrend")` when the latest close exceeds that average and
`(-10, "Downtrend")` otherwise, including when they are equal. -/
theorem trend_score_spec (cs : List ℚ) (h : 20 ≤ cs.length) :
    trend_score (.closes []) = (0, "No data") ∧
    (sma20 cs < cs.getLastD 0 → trend_score (.closes cs) = (10, "Uptrend")) ∧
    (cs.getLastD 0 ≤ sma20 cs → trend_score (.closes cs) = (-10, "Downtrend")) := by
  have hne : cs.isEmpty = false := by
    cases cs with
    | nil => simp at h
    | cons c rest => rfl
  have hma : ma20_last cs = some (sma20 cs) := by
    simp only [ma20_last, sma20, if_pos h]
  cases cs with
  | nil => simp at h
  | cons c rest =>
    refine ⟨rfl, ?_, ?_⟩ <;> intro hcmp <;> simp only [trend_score, hne, hma, Bool.false_eq_true,
      if_false]
    · rw [if_pos hcmp]
    · rw [if_neg (not_lt.mpr hcmp)]

/-- C6: on a non-empty price series with fewer than 20 points the rolling
mean has a missing last entry (`ma20_last` is `none`, pandas `NaN`), the
comparison `price > NaN` is false, and `trend_score` takes the else branch,
returning `(-10, "Downtrend")` — not the `(0, "Trend error")` fallback, and
without raising. -/
theorem trend_score_short_series (cs : List ℚ) (h0 : cs ≠ []) (h : cs.length < 20) :
    trend_score (.closes cs) = (-10, "Downtrend") := by
  have hne : cs.isEmpty = false := by
    cases cs with
    | nil => exact absurd rfl h0
    | cons c rest => rfl
  have hma : ma20_last cs = none := by
    simp only [ma20_last, if_neg (by omega : ¬ 20 ≤ cs.length)]
  simp only [trend_score, hne, Bool.false_eq_true, if_false, hma]

/-- C6 witness: a one-point series takes the Downtrend branch. -/
theorem trend_score_short_series_witness :
    ([ (1 : ℚ) ] ≠ [] ∧ [ (1 : ℚ) ].length < 20) ∧
    trend_score (.closes [(1 : ℚ)]) = (-10, "Downtrend") :=
  ⟨⟨by simp, by simp⟩, trend_score_short_series [(1 : ℚ)] (by simp) (by simp)⟩

/-- C4 witness: both figures growing at concrete values `2 > 1`. -/
theorem fundamental_score_spec_witness :
    ((2 : ℚ) > 1 ∧ (2 : ℚ) > 1) ∧
    fundamental_score (.rows 2 1 2 1) = (20, "Revenue growing, Net income improving") := by
  obtain ⟨-, -, -, h4⟩ := fundamental_score_spec 2 1 2 1
  exact ⟨⟨by norm_num, by norm_num⟩, h4 (by norm_num) (by norm_num)⟩

/-- C5 witness: twenty closes at 1 followed by a close at 2 give an uptrend. -/
theorem trend_score_spec_witness :
    20 ≤ (List.replicate 20 (1 : ℚ) ++ [2]).length ∧
    trend_score (.closes (List.replicate 20 (1 : ℚ) ++ [2])) = (10, "Uptrend") := by
  have hlen : 20 ≤ (List.replicate 20 (1 : ℚ) ++ [2]).length := by simp
  obtain ⟨-, h2, -⟩ := trend_score_spec (List.replicate 20 (1 : ℚ) ++ [2]) hlen
  refine ⟨hlen, h2 ?_⟩
  norm_num [sma20]

/-- Rounding an exact multiple of one fiftieth to two decimal places leaves
it unchanged: the floor of the doubled numerator is itself, so no rounding
occurs. -/
theorem round2_div50 (k : ℤ) : round2 ((k : ℚ) / 50) = (k : ℚ) / 50 := by
  have h : ((k : ℚ) / 50) * 100 = ((2 * k : ℤ) : ℚ) := by push_cast; ring
  unfold round2 roundHalfEven
  rw [h, Int.floor_intCast]
  rw [if_pos (by simp : ((2 * k : ℤ) : ℚ) - ((2 * k : ℤ) : ℚ) < 1 / 2)]
  push_cast
  ring

/-- The blend of integer component scores with integer weights is an integer
divided by 50. -/
theorem blend_int_div50 (n f t : ℤ) (w : WeightConfig) :
    blend (n : ℚ) (f : ℚ) (t : ℚ) w
      = (((n * w.w_news + f * w.w_fund + t * w.w_trend : ℤ)) : ℚ) / 50 := by
  unfold blend
  push_cast
  ring

/-- C2: for every ticker and weights in [0,50], the `final_score` field of the
`ScanResult` is the weighted blend
`news_score*(w_news/50) + f_score*(w_fund/50) + t_score*(w_trend/50)`
rounded to 2 decimal places; that rounding is exact (the blend is a multiple
of 1/50), and the `signal` is `classify` applied to that final score. -/
theorem scan_result_final_spec (env : String → TickerEnv) (w : WeightConfig) (tk : String)
    (hn : w.w_news ≤ 50) (hf : w.w_fund ≤ 50) (ht : w.w_trend ≤ 50) :
    (processTicker env w tk).final_score
      = round2 (blend ((newsScoreOf env tk : Int) : ℚ)
          (((fundamental_score (env tk).finData).1 : Int) : ℚ)
          (((trend_score (env tk).trendData).1 : Int) : ℚ) w) ∧
    round2 (blend ((newsScoreOf env tk : Int) : ℚ)
          (((fundamental_score (env tk).finData).1 : Int) : ℚ)
          (((trend_score (env tk).trendData).1 : Int) : ℚ) w)
      = blend ((newsScoreOf env tk : Int) : ℚ)
          (((fundamental_score (env tk).finData).1 : Int) : ℚ)
          (((trend_score (env tk).trendData).1 : Int) : ℚ) w ∧
    (processTicker env w tk).signal = classify ((processTicker env w tk).final_score) := by
  have hb := blend_int_div50 (newsScoreOf env tk) (fundamental_score (env tk).finData).1
    (trend_score (env tk).trendData).1 w
  have hr : round2 (blend ((newsScoreOf env tk : Int) : ℚ)
      (((fundamental_score (env tk).finData).1 : Int) : ℚ)
      (((trend_score (env tk).trendData).1 : Int) : ℚ) w)
      = blend ((newsScoreOf env tk : Int) : ℚ)
        (((fundamental_score (env tk).finData).1 : Int) : ℚ)
        (((trend_score (env tk).trendData).1 : Int) : ℚ) w := by
    rw [hb, round2_div50]
  refine ⟨rfl, hr, ?_⟩
  show classify _ = classify _
  rw [show (processTicker env w tk).final_score
      = round2 (blend ((newsScoreOf env tk : Int) : ℚ)
          (((fundamental_score (env tk).finData).1 : Int) : ℚ)
          (((trend_score (env tk).trendData).1 : Int) : ℚ) w) from rfl, hr]

/-- The ticker symbol used by the concrete witnesses. -/
def aapl : String := "AAPL"

/-- A concrete external environment: one headline "AAPL beats estimates",
growing revenue and net income (2 over 1), and twenty closes at 1 followed
by a close at 2. -/
def envC2 : String → TickerEnv := fun _ =>
  ⟨.page ["AAPL beats estimates".toList], .rows 2 1 2 1,
    .closes (List.replicate 20 (1 : ℚ) ++ [2])⟩

/-- C2 witness: with component scores (5, 20, 10) and weights (20, 20, 20)
the final score is 14 and the label is BEARISH. -/
theorem scan_result_final_spec_witness :
    ((20 : ℕ) ≤ 50 ∧ (20 : ℕ) ≤ 50 ∧ (20 : ℕ) ≤ 50) ∧
    newsScoreOf envC2 aapl = 5 ∧
    (fundamental_score (envC2 aapl).finData).1 = 20 ∧
    (trend_score (envC2 aapl).trendData).1 = 10 ∧
    (processTicker envC2 ⟨20, 20, 20⟩ aapl).final_score = 14 ∧
    (processTicker envC2 ⟨20, 20, 20⟩ aapl).signal = "🔻 BEARISH" := by
  obtain ⟨h1, h2, h3⟩ :=
    scan_result_final_spec envC2 ⟨20, 20, 20⟩ aapl (by norm_num) (by norm_num) (by norm_num)
  have hn : newsScoreOf envC2 aapl = 5 := by decide
  have hf : fundamental_score (envC2 aapl).finData = (20, "Revenue growing, Net income improving") := by
    show fundamental_score (.rows 2 1 2 1) = _
    simp only [fundamental_score]
    norm_num
    decide
  have hma : ma20_last (List.replicate 20 (1 : ℚ) ++ [2]) = some (21 / 20) := by
    norm_num [ma20_last]
  have ht : trend_score (envC2 aapl).trendData = (10, "Uptrend") := by
    show trend_score (.closes (List.replicate 20 (1 : ℚ) ++ [2])) = _
    simp only [trend_score, hma]
    norm_num
  have hfs : (processTicker envC2 ⟨20, 20, 20⟩ aapl).final_score = 14 := by
    rw [h1, h2, hn, hf, ht]
    norm_num [blend]
  refine ⟨⟨by norm_num, by norm_num, by norm_num⟩, hn, by rw [hf], by rw [ht], hfs, ?_⟩
  rw [h3, hfs]
  norm_num [classify]

/-- C7: every data-fetching component swallows its failures and degrades to a
fixed neutral default: `fetch_news` returns at most 5 headlines and the empty
sequence on failure, `fundamental_score` yields `(0, "Financial analysis
error")` on failure, `trend_score` yields `(0, "Trend error")` on failure,
and the scan is total — one complete `ScanResult` per ticker, never a
scan-level failure. -/
theorem error_boundary_defaults :
    (∀ nd : NewsData, (fetch_news nd).length ≤ 5) ∧
    fetch_news .err = [] ∧
    fundamental_score .err = (0, "Financial analysis error") ∧
    trend_score .err = (0, "Trend error") ∧
    (∀ (env : String → TickerEnv) (w : WeightConfig) (tickers : List String),
      (scan env w tickers).length = tickers.length) := by
  refine ⟨?_, rfl, rfl, rfl, ?_⟩
  · intro nd
    cases nd with
    | err => simp [fetch_news]
    | page headings =>
      simp only [fetch_news, List.length_take]
      omega
  · intro env w tickers
    simp [scan]

/-- C8: one scan yields exactly one `ScanResult` per requested ticker, in the
same order as the input ticker list (projecting the ticker field recovers the
input list), and the empty ticker list yields the empty result sequence. -/
theorem scan_one_result_per_ticker (env : String → TickerEnv) (w : WeightConfig)
    (tickers : List String) :
    (scan env w tickers).map ScanResult.ticker = tickers ∧
    scan env w [] = [] := by
  refine ⟨?_, rfl⟩
  calc (scan env w tickers).map ScanResult.ticker
      = tickers.map (fun tk => (processTicker env w tk).ticker) := by
        rw [scan, List.map_map]
        rfl
    _ = tickers.map id := rfl
    _ = tickers := List.map_id tickers

/-- Appending one block per result to an accumulator equals the accumulator
followed by the blocks in order. -/
theorem foldl_block_eq (rs : List ScanResult) (a : String) :
    rs.foldl (fun html r => html ++ resultBlock r) a = a ++ reportBody rs := by
  induction rs generalizing a with
  | nil => simp [reportBody]
  | cons r rest ih =>
    simp only [List.foldl_cons, reportBody, ih, String.append_assoc]

/-- C9: `generate_report` produces the title followed by exactly one block
per input `ScanResult`, in input order — `reportBody` is by definition the
in-order concatenation of `resultBlock` over the results, and each block
carries the ticker header, final score with label, news score, fundamental
score with reason, trend score with reason, and a separator — and on the
empty sequence the output is only the title. -/
theorem generate_report_spec (rs : List ScanResult) :
    generate_report rs = "<h1>Market Scanner Report</h1>" ++ reportBody rs ∧
    generate_report [] = "<h1>Market Scanner Report</h1>" ∧
    (∀ r : ScanResult, resultBlock r
      = "<h3>" ++ r.ticker ++ "</h3>"
        ++ "<p>Score: " ++ toString r.final_score ++ " — " ++ r.signal ++ "</p>"
        ++ "<p>News Score: " ++ toString r.news ++ "</p>"
        ++ "<p>Fundamentals: " ++ toString r.fund ++ " (" ++ r.fund_reason ++ ")</p>"
        ++ "<p>Trend: " ++ toString r.trend ++ " (" ++ r.trend_reason ++ ")</p>"
        ++ "<hr>") := by
  exact ⟨foldl_block_eq rs _, rfl, fun r => rfl⟩

/-- C10: the aggregator is linear in each weight — a zero weight removes that
contribution of that component entirely regardless of its score, and doubling
`w_news` (staying within [0,50]) exactly doubles the news term. -/
theorem blend_linear (n f t : ℚ) (wn wf wt : ℕ)
    (hn : wn ≤ 50) (hf : wf ≤ 50) (ht : wt ≤ 50) (hd : 2 * wn ≤ 50) :
    blend n f t ⟨0, wf, wt⟩ = f * ((wf : ℚ) / 50) + t * ((wt : ℚ) / 50) ∧
    blend n f t ⟨wn, 0, wt⟩ = n * ((wn : ℚ) / 50) + t * ((wt : ℚ) / 50) ∧
    blend n f t ⟨wn, wf, 0⟩ = n * ((wn : ℚ) / 50) + f * ((wf : ℚ) / 50) ∧
    blend n f t ⟨2 * wn, wf, wt⟩
      = 2 * (n * ((wn : ℚ) / 50)) + f * ((wf : ℚ) / 50) + t * ((wt : ℚ) / 50) := by
  refine ⟨?_, ?_, ?_, ?_⟩ <;> (unfold blend; push_cast; ring)

/-- C10 witness: at component scores (5, 20, 10), zeroing the news weight
gives 12 and doubling it from 20 to 40 gives 16 = 2·2 + 8 + 4. -/
theorem blend_linear_witness :
    ((20 : ℕ) ≤ 50 ∧ (20 : ℕ) ≤ 50 ∧ (20 : ℕ) ≤ 50 ∧ 2 * (20 : ℕ) ≤ 50) ∧
    blend 5 20 10 ⟨0, 20, 20⟩ = 12 ∧
    blend 5 20 10 ⟨2 * 20, 20, 20⟩ = 16 := by
  obtain ⟨h1, -, -, h4⟩ :=
    blend_linear 5 20 10 20 20 20 (by norm_num) (by norm_num) (by norm_num) (by norm_num)
  refine ⟨⟨by norm_num, by norm_num, by norm_num, by norm_num⟩, ?_, ?_⟩
  · rw [h1]; norm_num
  · rw [h4]; norm_num

end Scanner
